/-
Verification of the UndetectedBrowser profile-management core.

Shallow embedding of:
  src/core/profile_manager.py   (ProfileManager, ProfileMetadata, error classes)
  src/core/browser_launcher.py  (BrowserProcess.kill, BrowserLauncher.kill_process)
  src/utils/cache_cleaner.py    (CacheCleaner)
  src/utils/fingerprint_generator.py (FingerprintGenerator)

Python strings are embedded as Lean `String` (backed by `List Char`), the
metadata JSON document as an insertion-ordered association list (Python dicts
preserve insertion order), the filesystem as an association list from
sanitized directory name to a list of named files, and randomness as an
explicit choice record passed to the generator.  Python exceptions are
embedded as an error inductive with one constructor per exception class the
module can surface (the two ProfileIOError message families are split so that
the "Corrupted metadata file" error is distinguishable, as it is by message
in the source).
-/
import Mathlib

namespace UB

/-- Embedded error taxonomy of `profile_manager.py`: `ProfileValidationError`,
`ProfileNotFoundError`, `ProfileAlreadyExistsError`, `ProfileIOError` (split
by its three message families: permission denied, system error, corrupted
metadata), and the base `ProfileError` used by the catch-all handlers. -/
inductive PErr
  | validation
  | notFound
  | alreadyExists
  | ioPermission
  | ioSystem
  | ioCorruptMetadata
  | generic
deriving DecidableEq

deriving instance DecidableEq for Except

/-- Whitespace test used by Python `str.split()` / `str.strip()`. -/
def isWs (c : Char) : Bool := c.isWhitespace

/-- Embedding of Python `str.split()` (split on whitespace runs, dropping
empty pieces); `acc` is the current word accumulated in reverse. -/
def pySplitAux : List Char → List Char → List (List Char)
  | [], acc => if acc.isEmpty then [] else [acc.reverse]
  | c :: cs, acc =>
    if isWs c then
      if acc.isEmpty then pySplitAux cs [] else acc.reverse :: pySplitAux cs []
    else pySplitAux cs (c :: acc)

/-- Embedding of `name.split()` from `profile_dir`. -/
def pySplit (s : List Char) : List (List Char) := pySplitAux s []

/-- Embedding of Python `"_".join(ws)`. -/
def joinUnderscore : List (List Char) → List Char
  | [] => []
  | [w] => w
  | w :: ws => w ++ '_' :: joinUnderscore ws

/-- The source line `safe = "_".join(name.split())` from `ProfileManager.profile_dir`. -/
def sanitizeL (s : List Char) : List Char := joinUnderscore (pySplit s)

/-- Right-strip: drop trailing whitespace (Python `str.rstrip()`). -/
def trimRight : List Char → List Char
  | [] => []
  | c :: cs =>
    match trimRight cs with
    | [] => if isWs c then [] else [c]
    | r => c :: r

/-- Embedding of Python `str.strip()`: drop trailing then leading whitespace. -/
def pyStripL (s : List Char) : List Char := (trimRight s).dropWhile isWs

/-- Spec-side helper: replace each maximal whitespace run by one `'_'`;
`inRun` records whether the underscore for the current run was already
emitted. -/
def collapseAux : Bool → List Char → List Char
  | _, [] => []
  | inRun, c :: cs =>
    if isWs c then
      if inRun then collapseAux true cs else '_' :: collapseAux true cs
    else c :: collapseAux false cs

/-- Spec-side sanitizer, from the spec's words: strip the name, then collapse
each internal whitespace run to a single underscore. -/
def collapseL (s : List Char) : List Char := collapseAux false (pyStripL s)


/-- Does `pat` occur at the head of the second list? -/
def leadsWith : List Char → List Char → Bool
  | [], _ => true
  | _ :: _, [] => false
  | p :: ps, c :: cs => p == c && leadsWith ps cs

/-- Substring occurrence, embedding Python's `pat in s` on strings. -/
def hasSub (pat : List Char) : List Char → Bool
  | [] => leadsWith pat []
  | c :: cs => leadsWith pat (c :: cs) || hasSub pat cs

/-- Python `pat in s` on `String`. -/
def containsStr (pat s : String) : Bool := hasSub pat.data s.data

/-- Embedding of `PROFILES_DIR` from `src/config.py` (the `profiles` directory under the
application directory). -/
def PROFILES_DIR : String := "profiles"

/-- The sanitizer `"_".join(name.split())` on `String`. -/
def pySanitize (s : String) : String := ⟨sanitizeL s.data⟩

/-- Python `name.strip()` on `String`. -/
def pyStrip (s : String) : String := ⟨pyStripL s.data⟩

/-- The spec's sanitizer on `String`: strip, then collapse each internal
whitespace run to a single underscore. -/
def specSanitize (s : String) : String := ⟨collapseL s.data⟩

/-- The path `str(profiles_dir / safe)` for a given raw profile name. -/
def pathStr (name : String) : String := PROFILES_DIR ++ "/" ++ pySanitize name

/-- Embedding of `ProfileManager.profile_dir`: reject an empty (after strip)
name, sanitize, reject a sanitized form containing `..`, `/` or `\`,
otherwise return `profiles_dir / safe`. -/
def profile_dir (name : String) : Except PErr String :=
  if pyStrip name = "" then .error .validation
  else
    let safe := pySanitize name
    if containsStr ".." safe || containsStr "/" safe || containsStr "\\" safe then
      .error .validation
    else .ok (PROFILES_DIR ++ "/" ++ safe)


/-- Embedding of `BrowserFingerprint` from `fingerprint_generator.py`. -/
structure Fingerprint where
  user_agent : String
  platform : String
  vendor : String
  renderer : String
  language : String
  languages : List String
  screen_width : Nat
  screen_height : Nat
  viewport_width : Nat
  viewport_height : Nat
  hardware_concurrency : Nat
  device_memory : Nat
  color_depth : Nat
  timezone : String
  webgl_vendor : String
  webgl_renderer : String
deriving DecidableEq

/-- Embedding of `ProxyConfig` from `proxy_manager.py` (value object only). -/
structure MProxyConfig where
  server : String
  username : Option String := none
  password : Option String := none
deriving DecidableEq

/-- Catalog `FingerprintGenerator.CHROME_VERSIONS`. -/
def CHROME_VERSIONS : List String :=
  ["120.0.6099.109", "119.0.6045.159", "118.0.5993.88",
   "117.0.5938.92", "116.0.5845.96"]

/-- Catalog `FingerprintGenerator.SCREEN_RESOLUTIONS`. -/
def SCREEN_RESOLUTIONS : List (Nat × Nat) :=
  [(1920, 1080), (1366, 768), (1440, 900), (1536, 864),
   (1680, 1050), (2560, 1440), (3840, 2160)]

/-- Catalog `FingerprintGenerator.WEBGL_CONFIGS` as (vendor, renderer) pairs. -/
def WEBGL_CONFIGS : List (String × String) :=
  [("Google Inc. (NVIDIA)", "ANGLE (NVIDIA GeForce GTX 1660 Ti Direct3D11 vs_5_0 ps_5_0)"),
   ("Google Inc. (Intel)", "ANGLE (Intel(R) UHD Graphics 630 Direct3D11 vs_5_0 ps_5_0)"),
   ("Google Inc. (AMD)", "ANGLE (AMD Radeon RX 580 Direct3D11 vs_5_0 ps_5_0)"),
   ("Google Inc. (Apple)", "ANGLE (Apple, Apple M1, OpenGL 4.1)")]

/-- Catalog `FingerprintGenerator.TIMEZONES`. -/
def TIMEZONES : List String :=
  ["Europe/London", "America/New_York", "Europe/Paris",
   "America/Los_Angeles", "Europe/Berlin", "Asia/Tokyo",
   "Australia/Sydney", "America/Chicago", "Europe/Madrid",
   "Asia/Shanghai", "Europe/Kiev"]

/-- The `languages_options` catalog inside `FingerprintGenerator.generate`. -/
def LANG_OPTIONS : List (List String × String) :=
  [(["en-US", "en"], "en-US"),
   (["ru-RU", "ru", "en-US", "en"], "ru-RU"),
   (["de-DE", "de", "en-US", "en"], "de-DE"),
   (["fr-FR", "fr", "en-US", "en"], "fr-FR")]

/-- One outcome of every `random.choice` / `random.randint` drawn by
`FingerprintGenerator.generate`, made explicit: `dy` encodes
`randint(60, 150)` as `60 + dy`. -/
structure FpChoice where
  chromeVersion : Fin 5
  resolution : Fin 7
  dx : Fin 21
  dy : Fin 91
  webgl : Fin 4
  hc : Fin 4
  dm : Fin 4
  lang : Fin 4
  tz : Fin 11
deriving DecidableEq

/-- Embedding of `FingerprintGenerator.generate_user_agent`: OS string looked up with a
`windows` default, Chrome version drawn from the catalog. -/
def generate_user_agent (os_type : String) (c : FpChoice) : String :=
  let chrome_version := CHROME_VERSIONS.getD c.chromeVersion.val ""
  let os_string :=
    if os_type = "macos" then "Macintosh; Intel Mac OS X 10_15_7"
    else if os_type = "linux" then "X11; Linux x86_64"
    else "Windows NT 10.0; Win64; x64"
  "Mozilla/5.0 (" ++ os_string ++ ") AppleWebKit/537.36 (KHTML, like Gecko) Chrome/"
    ++ chrome_version ++ " Safari/537.36"

/-- Embedding of `FingerprintGenerator.generate` with the random draws given by `c`.
A custom user agent is used only when truthy (Python `custom_user_agent or
...` falls through on the empty string). -/
def FingerprintGenerator.generate (os_type : String) (custom_user_agent : Option String)
    (c : FpChoice) : Fingerprint :=
  let res := SCREEN_RESOLUTIONS.getD c.resolution.val (0, 0)
  let webgl := WEBGL_CONFIGS.getD c.webgl.val ("", "")
  let pf :=
    if os_type = "macos" then ("MacIntel", "Google Inc.", "Google Inc. (Apple)")
    else if os_type = "linux" then ("Linux x86_64", "Google Inc.", "Google Inc. (NVIDIA)")
    else ("Win32", "Google Inc.", "Google Inc. (NVIDIA)")
  let lg := LANG_OPTIONS.getD c.lang.val ([], "")
  { user_agent :=
      match custom_user_agent with
      | some ua => if ua = "" then generate_user_agent os_type c else ua
      | none => generate_user_agent os_type c
    platform := pf.1
    vendor := pf.2.1
    renderer := pf.2.2
    language := lg.2
    languages := lg.1
    screen_width := res.1
    screen_height := res.2
    viewport_width := res.1 - c.dx.val
    viewport_height := res.2 - (60 + c.dy.val)
    hardware_concurrency := [4, 8, 12, 16].getD c.hc.val 0
    device_memory := [4, 8, 16, 32].getD c.dm.val 0
    color_depth := 24
    timezone := TIMEZONES.getD c.tz.val ""
    webgl_vendor := webgl.1
    webgl_renderer := webgl.2 }

/-- Embedding of `ProfileMetadata` from `profile_manager.py` (one record of the metadata
document). -/
structure ProfileMetadata where
  name : String
  created : String
  path : String
  fingerprint : Option Fingerprint := none
  proxy : Option MProxyConfig := none
  notes : String := ""
  engine : String := "chromedriver"
  last_launched : String := ""
deriving DecidableEq

/-- The `ProfileMetadata.__init__` engine rule: a profile-specific engine
wins; the `chromedriver` default falls back to the configured global engine
`cfg` (`config_manager.get_str("browser_engine", engine)`). -/
def mkMeta (cfg name created path : String) (fingerprint : Option Fingerprint)
    (proxy : Option MProxyConfig) (notes engine last_launched : String) :
    ProfileMetadata :=
  { name, created, path, fingerprint, proxy, notes,
    engine := if engine = "chromedriver" then cfg else engine,
    last_launched }

/-- Content of one file inside a profile directory: plain text, a serialized
fingerprint, a serialized proxy, or an opaque pre-existing blob. -/
inductive FileData
  | text (s : String)
  | fpJson (fp : Fingerprint)
  | proxyJson (p : MProxyConfig)
  | blob (tag : String)
deriving DecidableEq

/-- A profile directory: named files (order-insensitive lookup). -/
abbrev DirTree := List (String × FileData)

/-- The state `ProfileManager` acts on: profile directories keyed by their
sanitized directory name, and the metadata document keyed by raw profile
name (insertion-ordered, as a Python dict is). -/
structure SysState where
  dirs : List (String × DirTree)
  store : List (String × ProfileMetadata)
deriving DecidableEq

/-- Association-list lookup (Python `d.get(k)` / `k in d`): the value of the
first entry with the given key. -/
def alGet {β : Type} (k : String) : List (String × β) → Option β
  | [] => none
  | e :: tl => if e.1 = k then some e.2 else alGet k tl

/-- Remove every entry with the given key (Python `dict.pop` / `del`, and
`shutil.rmtree` on the directory map). -/
def eraseKey {β : Type} (k : String) (l : List (String × β)) : List (String × β) :=
  l.filter (fun e => decide (e.1 ≠ k))

/-- Python `d[k] = v`: overwrite in place when the key exists, else append. -/
def setKey {β : Type} (k : String) (v : β) (l : List (String × β)) :
    List (String × β) :=
  if (alGet k l).isSome then l.map (fun e => if e.1 = k then (k, v) else e)
  else l ++ [(k, v)]

/-- Embedding of `shutil.rmtree(pdir, ignore_errors=True)` on the state. -/
def removeDir (d : String) (st : SysState) : SysState :=
  { st with dirs := eraseKey d st.dirs }

/-- The fallible filesystem operations of `create_profile`, in program
order; a fault makes exactly that operation raise. -/
inductive CreateStep
  | mkdirStep | writeNotes | writeFp | writeProxy | loadMeta | saveMeta
deriving DecidableEq

/-- Which OS exception a faulted filesystem operation raises. -/
inductive FsErr
  | permissionDenied | osError
deriving DecidableEq

/-- The `except PermissionError` / `except OSError` handlers of the public
methods translate a raw OS exception into `ProfileIOError`. -/
def fsErrTo : FsErr → PErr
  | .permissionDenied => .ioPermission
  | .osError => .ioSystem

/-- Embedding of `ProfileManager.create_profile`.  Faithful to the source's
exception handling: a `ProfileValidationError`/`ProfileAlreadyExistsError`
raised inside the `try` block is caught by the trailing `except Exception`
handler, which removes `pdir` whenever it exists (even a pre-existing one)
and re-raises the base `ProfileError`; a fault at the metadata load/save is
first translated to `ProfileIOError` by `_handle_io_errors` and then also
swallowed into the base `ProfileError` by `except Exception`.  Rollback
states are built explicitly and then passed through `removeDir`, exactly as
the handlers call `shutil.rmtree`. -/
def create_profile (cfg now : String) (c : FpChoice) (fault : Option (CreateStep × FsErr))
    (st : SysState) (name os_type : String) (custom_user_agent : Option String)
    (proxy : Option MProxyConfig) (notes engine : String) :
    Except PErr Bool × SysState :=
  match profile_dir name with
  | .error _ => (.error .generic, st)
  | .ok pdirPath =>
    let safe := pySanitize name
    if (alGet safe st.dirs).isSome then
      (.error .generic, removeDir safe st)
    else
      match fault with
      | some (.mkdirStep, k) => (.error (fsErrTo k), st)
      | _ =>
        let notes_content :=
          "Profile created: " ++ now ++ "\n" ++
            (if notes = "" then "" else "\nNotes:\n" ++ notes ++ "\n")
        let fingerprint := FingerprintGenerator.generate os_type custom_user_agent c
        match fault with
        | some (.writeNotes, k) =>
          (.error (fsErrTo k), removeDir safe { st with dirs := st.dirs ++ [(safe, [])] })
        | _ =>
        let t1 : DirTree := setKey "notes.txt" (FileData.text notes_content) []
        match fault with
        | some (.writeFp, k) =>
          (.error (fsErrTo k), removeDir safe { st with dirs := st.dirs ++ [(safe, t1)] })
        | _ =>
        let t2 := setKey "fingerprint.json" (FileData.fpJson fingerprint) t1
        match proxy, fault with
        | some _, some (.writeProxy, k) =>
          (.error (fsErrTo k), removeDir safe { st with dirs := st.dirs ++ [(safe, t2)] })
        | _, _ =>
        let t3 := match proxy with
          | some p => setKey "proxy.json" (FileData.proxyJson p) t2
          | none => t2
        match fault with
        | some (.loadMeta, _) =>
          (.error .generic, removeDir safe { st with dirs := st.dirs ++ [(safe, t3)] })
        | _ =>
        match fault with
        | some (.saveMeta, _) =>
          (.error .generic, removeDir safe { st with dirs := st.dirs ++ [(safe, t3)] })
        | _ =>
        let record := mkMeta cfg name now pdirPath (some fingerprint) proxy notes engine ""
        (.ok true, { dirs := st.dirs ++ [(safe, t3)], store := setKey name record st.store })

/-- Embedding of `ProfileManager.delete_profile`: existence is decided by
the on-disk directory alone; the internal `ProfileNotFoundError` is
swallowed by `except Exception` into the base `ProfileError`; the metadata
entry is removed only when present. -/
def delete_profile (st : SysState) (name : String) : Except PErr Bool × SysState :=
  match profile_dir name with
  | .error _ => (.error .generic, st)
  | .ok _ =>
    let safe := pySanitize name
    match alGet safe st.dirs with
    | none => (.error .generic, st)
    | some _ =>
      let store1 := if (alGet name st.store).isSome then eraseKey name st.store else st.store
      (.ok true, { dirs := eraseKey safe st.dirs, store := store1 })

/-- Embedding of `ProfileManager.rename_profile` (success path; internal
typed errors are swallowed into the base `ProfileError` by `except
Exception`).  The directory rename keeps the entry in place; the store entry
is popped and re-inserted under the new key with `name`/`path` updated. -/
def rename_profile (st : SysState) (old_name new_name : String) :
    Except PErr Bool × SysState :=
  match profile_dir old_name with
  | .error _ => (.error .generic, st)
  | .ok _ =>
  match profile_dir new_name with
  | .error _ => (.error .generic, st)
  | .ok _ =>
    let so := pySanitize old_name
    let sn := pySanitize new_name
    match alGet so st.dirs with
    | none => (.error .generic, st)
    | some _ =>
      if (alGet sn st.dirs).isSome then (.error .generic, st)
      else
        let dirs1 := st.dirs.map (fun e => if e.1 = so then (sn, e.2) else e)
        match alGet old_name st.store with
        | none => (.ok true, { dirs := dirs1, store := st.store })
        | some r =>
          let r1 := { r with name := new_name, path := pathStr new_name }
          (.ok true, { dirs := dirs1, store := setKey new_name r1 (eraseKey old_name st.store) })

/-- The fallible filesystem operations of `duplicate_profile`, in program
order. -/
inductive DupStep
  | copyTree | dupLoadMeta | dupWriteFp | dupSaveMeta
deriving DecidableEq

/-- Embedding of `ProfileManager.duplicate_profile`.  As in `create_profile`
the internal typed errors fall into `except Exception`, whose cleanup
removes `new_dir` whenever it exists — including the pre-existing target
directory of the `ProfileAlreadyExistsError` case.  When the source has no
metadata record, the tree is copied but no fresh fingerprint is written and
no record is persisted.  A faulted `copytree` leaves a partial target that
the handler removes (modelled as the copied tree followed by `removeDir`). -/
def duplicate_profile (cfg now : String) (c : FpChoice) (fault : Option (DupStep × FsErr))
    (st : SysState) (source_name new_name : String) : Except PErr Bool × SysState :=
  match profile_dir source_name with
  | .error _ => (.error .generic, st)
  | .ok _ =>
  match profile_dir new_name with
  | .error _ => (.error .generic, st)
  | .ok _ =>
    let ss := pySanitize source_name
    let sn := pySanitize new_name
    match alGet ss st.dirs with
    | none => (.error .generic, st)
    | some srcTree =>
      if (alGet sn st.dirs).isSome then
        (.error .generic, removeDir sn st)
      else
        match fault with
        | some (.copyTree, k) =>
          (.error (fsErrTo k), removeDir sn { st with dirs := st.dirs ++ [(sn, srcTree)] })
        | _ =>
        match fault with
        | some (.dupLoadMeta, _) =>
          (.error .generic, removeDir sn { st with dirs := st.dirs ++ [(sn, srcTree)] })
        | _ =>
        match alGet source_name st.store with
        | none => (.ok true, { st with dirs := st.dirs ++ [(sn, srcTree)] })
        | some src =>
          let nfp := FingerprintGenerator.generate "windows" none c
          match fault with
          | some (.dupWriteFp, k) =>
            (.error (fsErrTo k), removeDir sn { st with dirs := st.dirs ++ [(sn, srcTree)] })
          | _ =>
          let t1 := setKey "fingerprint.json" (FileData.fpJson nfp) srcTree
          let record := mkMeta cfg new_name now (pathStr new_name) (some nfp) src.proxy
            ("Duplicated from: " ++ source_name ++ "\n" ++ src.notes) "chromedriver" ""
          match fault with
          | some (.dupSaveMeta, _) =>
            (.error .generic, removeDir sn { st with dirs := st.dirs ++ [(sn, t1)] })
          | _ =>
          (.ok true, { dirs := st.dirs ++ [(sn, t1)], store := setKey new_name record st.store })

/-- Write one file into an existing profile directory; `none` when the
directory is absent (`write_text` raises `OSError`). -/
def writeFile (st : SysState) (d fn : String) (v : FileData) : Option SysState :=
  match alGet d st.dirs with
  | none => none
  | some t => some { st with dirs := setKey d (setKey fn v t) st.dirs }

/-- Embedding of `ProfileManager.update_profile`: `fingerprint` truthy check
(a `BrowserFingerprint` instance is always truthy, so `Option` matches),
`proxy is not None`, `notes is not None`, `engine is not None`; each provided
argument sets the record field and rewrites the auxiliary file; the whole
mapping is saved at the end.  The internal `ProfileNotFoundError` is
swallowed into the base `ProfileError` by `except Exception`. -/
def update_profile (st : SysState) (name : String)
    (fingerprint : Option Fingerprint) (proxy : Option MProxyConfig)
    (notesArg : Option String) (engineArg : Option String) :
    Except PErr Bool × SysState :=
  match alGet name st.store with
  | none => (.error .generic, st)
  | some r =>
    match profile_dir name with
    | .error _ => (.error .generic, st)
    | .ok _ =>
      let safe := pySanitize name
      let r1 := match fingerprint with
        | some fp => { r with fingerprint := some fp }
        | none => r
      match (match fingerprint with
             | some fp => writeFile st safe "fingerprint.json" (.fpJson fp)
             | none => some st) with
      | none => (.error .ioSystem, st)
      | some stA =>
        let r2 := match proxy with
          | some p => { r1 with proxy := some p }
          | none => r1
        match (match proxy with
               | some p => writeFile stA safe "proxy.json" (.proxyJson p)
               | none => some stA) with
        | none => (.error .ioSystem, stA)
        | some stB =>
          let r3 := match notesArg with
            | some n => { r2 with notes := n }
            | none => r2
          match (match notesArg with
                 | some n => writeFile stB safe "notes.txt" (.text n)
                 | none => some stB) with
          | none => (.error .ioSystem, stB)
          | some stC =>
            let r4 := match engineArg with
              | some e => { r3 with engine := e }
              | none => r3
            (.ok true, { stC with store := setKey name r4 st.store })

/-- Outcome of reading the metadata file in `_load_metadata`: the file is
absent, present but not valid JSON, or a valid document. -/
inductive MetaFile
  | absent
  | invalid
  | valid (m : List (String × ProfileMetadata))
deriving DecidableEq

/-- Embedding of `ProfileManager._load_metadata` under its
`@_handle_io_errors` decorator: `FileNotFoundError` yields an empty mapping,
`json.JSONDecodeError` raises `ProfileIOError("Corrupted metadata file:
...")` — which the decorator's `except ProfileError: raise` passes through
unchanged — and a valid document is returned as a mapping. -/
def load_metadata : MetaFile → Except PErr (List (String × ProfileMetadata))
  | .absent => .ok []
  | .invalid => .error .ioCorruptMetadata
  | .valid m => .ok m

/-- Catalog `CacheCleaner.CACHE_DIRS`. -/
def CACHE_DIRS : List String :=
  ["Cache", "Code Cache", "GPUCache", "Service Worker/CacheStorage",
   "Service Worker/ScriptCache", "DawnCache", "ShaderCache"]

/-- Catalog `CacheCleaner.CACHE_FILES`. -/
def CACHE_FILES : List String :=
  ["Cookies", "Cookies-journal", "Network Persistent State", "TransportSecurity",
   "Favicons", "Favicons-journal", "Top Sites", "Top Sites-journal",
   "Visited Links", "History", "History-journal", "History Provider Cache",
   "Web Data", "Web Data-journal", "QuotaManager", "QuotaManager-journal"]

/-- One search location of the cleaner (the profile root, or its `Default`
sub-profile): cache-candidate subdirectories (name, recursive size) and
top-level files (name, size). -/
structure CacheLoc where
  dirs : List (String × Nat)
  files : List (String × Nat)
deriving DecidableEq

/-- A profile directory as the cleaner sees it: the root location plus the
optional `Default` sub-profile location. -/
structure CacheProfileDir where
  root : CacheLoc
  hasDefault : Bool
  dflt : CacheLoc
deriving DecidableEq

/-- The file filter of `clean_profile_cache`: skip a catalog name containing
`Cookie` when cookies are kept, and one containing `History`, `Visited` or
`Top Sites` when history is kept. -/
def files_to_clean (keep_cookies keep_history : Bool) : List String :=
  CACHE_FILES.filter (fun n =>
    !(keep_cookies && containsStr "Cookie" n) &&
      !(keep_history && (containsStr "History" n || containsStr "Visited" n ||
          containsStr "Top Sites" n)))

/-- The file filter of `get_cleanable_size` (a second copy in the source,
embedded separately so that the lockstep property is a real theorem). -/
def files_to_count (keep_cookies keep_history : Bool) : List String :=
  CACHE_FILES.filter (fun n =>
    !(keep_cookies && containsStr "Cookie" n) &&
      !(keep_history && (containsStr "History" n || containsStr "Visited" n ||
          containsStr "Top Sites" n)))

/-- Embedding of `clean_profile_cache` on one search location: remove every present
catalog directory (recursively, summing `_get_dir_size`), then every present
file surviving the flag filter (summing `stat().st_size`). -/
def cleanLoc (keep_cookies keep_history : Bool) (l : CacheLoc) : Nat × CacheLoc :=
  let dirBytes := (CACHE_DIRS.filterMap (fun n => alGet n l.dirs)).sum
  let dirs1 := l.dirs.filter (fun e => decide (e.1 ∉ CACHE_DIRS))
  let toClean := files_to_clean keep_cookies keep_history
  let fileBytes := (toClean.filterMap (fun n => alGet n l.files)).sum
  let files1 := l.files.filter (fun e => decide (e.1 ∉ toClean))
  (dirBytes + fileBytes, { dirs := dirs1, files := files1 })

/-- Embedding of `get_cleanable_size` on one search location: identical matching and
sizing pass, no deletion. -/
def sizeLoc (keep_cookies keep_history : Bool) (l : CacheLoc) : Nat :=
  (CACHE_DIRS.filterMap (fun n => alGet n l.dirs)).sum +
    ((files_to_count keep_cookies keep_history).filterMap (fun n => alGet n l.files)).sum

/-- Embedding of `CacheCleaner.clean_profile_cache`: a missing profile
directory frees nothing; otherwise both the root and (when present) the
`Default` location are cleaned and the freed bytes summed. -/
def clean_profile_cache (keep_cookies keep_history : Bool)
    (d : Option CacheProfileDir) : Nat × Option CacheProfileDir :=
  match d with
  | none => (0, none)
  | some pd =>
    let r := cleanLoc keep_cookies keep_history pd.root
    if pd.hasDefault then
      let q := cleanLoc keep_cookies keep_history pd.dflt
      (r.1 + q.1, some { root := r.2, hasDefault := true, dflt := q.2 })
    else
      (r.1, some { pd with root := r.2 })

/-- Embedding of `CacheCleaner.get_cleanable_size`. -/
def get_cleanable_size (keep_cookies keep_history : Bool)
    (d : Option CacheProfileDir) : Nat :=
  match d with
  | none => 0
  | some pd =>
    if pd.hasDefault then
      sizeLoc keep_cookies keep_history pd.root + sizeLoc keep_cookies keep_history pd.dflt
    else
      sizeLoc keep_cookies keep_history pd.root

/-- Embedding of `BrowserProcess` from `browser_launcher.py` (registry value). -/
structure BrowserProcess where
  profile_name : String
  pid : Nat
  headless : Bool
deriving DecidableEq

/-- The OS process table as `psutil` exposes it to `BrowserProcess.kill`:
the set of live pids, and per pid the list its `children(recursive=True)`
call returns. -/
structure ProcWorld where
  alive : List Nat
  children : List (Nat × List Nat)
deriving DecidableEq

/-- Embedding of `process.children(recursive=True)` for a pid. -/
def ProcWorld.kids (w : ProcWorld) (pid : Nat) : List Nat :=
  ((w.children.find? (fun e => e.1 = pid)).map (fun e => e.2)).getD []

/-- Embedding of `BrowserProcess.kill`: constructing `psutil.Process(pid)`
raises `NoSuchProcess` when the pid is not alive, in which case `kill`
returns `False` and nothing changes; otherwise every recursive child is
killed (failures tolerated) and then the main process, returning `True`. -/
def procKill (w : ProcWorld) (pid : Nat) : Bool × ProcWorld :=
  if pid ∈ w.alive then
    (true, { w with alive := w.alive.filter (fun q => decide (q ≠ pid) && decide (q ∉ w.kids pid)) })
  else
    (false, w)

/-- The `BrowserLauncher._active_processes` registry. -/
abbrev Registry := List (String × BrowserProcess)

/-- Embedding of `BrowserLauncher.kill_process`: look the profile up in the
registry; if present, call `BrowserProcess.kill` and delete the registry
entry only when the kill reported success; return `False` when no entry
exists. -/
def kill_process (reg : Registry) (w : ProcWorld) (name : String) :
    Bool × Registry × ProcWorld :=
  match alGet name reg with
  | some p =>
    let r := procKill w p.pid
    if r.1 then (true, eraseKey name reg, r.2) else (false, reg, r.2)
  | none => (false, reg, w)

/-- A fixed outcome for every random draw (all first catalog entries). -/
def c0 : FpChoice := ⟨0, 0, 0, 0, 0, 0, 0, 0, 0⟩

/-- The fingerprint `generate("windows")` produces under the draws `c0`. -/
def fpW : Fingerprint := FingerprintGenerator.generate "windows" none c0

/-- Fixture proxy. -/
def p0 : MProxyConfig := { server := "1.2.3.4:8080" }

/-- Fixture state for C4: the directory `profiles/work` exists (holding one
old file) and the store is empty. -/
def stC4 : SysState := ⟨[("work", [("x.bin", FileData.blob "old")])], []⟩

/-- Fixture record whose directory is missing (a stale store entry). -/
def recGhost : ProfileMetadata :=
  { name := "ghost", created := "t", path := "profiles/ghost" }

/-- Fixture state for C10: no directories, one stale record `ghost`. -/
def stC10 : SysState := ⟨[], [("ghost", recGhost)]⟩

/-- Fixture record for C5 with a proxy set. -/
def recWork : ProfileMetadata :=
  { name := "work", created := "t", path := "profiles/work", proxy := some p0 }

/-- Fixture state for C5: profile `work` with directory and record. -/
def stC5 : SysState := ⟨[("work", [])], [("work", recWork)]⟩

/-- Fixture record for C7 whose stored fingerprint is exactly the one the
generator produces under the draws `c0`. -/
def recWork7 : ProfileMetadata :=
  { name := "work", created := "t", path := "profiles/work",
    fingerprint := some fpW, proxy := some p0, notes := "n" }

/-- Fixture state for C7. -/
def stC7 : SysState :=
  ⟨[("work", [("fingerprint.json", FileData.fpJson fpW)])], [("work", recWork7)]⟩

/-- Fixture state for C8: profiles `alpha` (with record) and its directory. -/
def recAlpha : ProfileMetadata :=
  { name := "alpha", created := "t0", path := pathStr "alpha",
    proxy := some p0, notes := "n", last_launched := "t9" }

/-- Fixture state for C8. -/
def stC8 : SysState := ⟨[("alpha", [("notes.txt", FileData.text "n")])], [("alpha", recAlpha)]⟩

/-- Fixture cache directory for C6: a root with a cookies file and a cache
directory, no `Default` sub-profile. -/
def cdC6 : CacheProfileDir :=
  { root := { dirs := [("Cache", 300)], files := [("Cookies", 5), ("Favicons", 7)] },
    hasDefault := false,
    dflt := { dirs := [], files := [] } }

/-- Fixture registry for C9: one tracked process with a dead pid. -/
def regC9 : Registry := [("work", ⟨"work", 42, false⟩)]

/-- Fixture process world for C9: pid 42 is not alive. -/
def wC9 : ProcWorld := ⟨[], []⟩

/-- Fixture process world for the C9 witness: pid 42 alive with child 43. -/
def wC9b : ProcWorld := ⟨[42, 43, 44], [(42, [43])]⟩

/-- The error `create_profile` surfaces when the given step faults: raw OS
errors at `mkdir`/file writes hit the typed `except OSError`/`except
PermissionError` handlers, while metadata load/save faults arrive as
`ProfileIOError` (already a `ProfileError`) and fall into `except Exception`,
which wraps them in the base `ProfileError`. -/
def createFaultErr : CreateStep → FsErr → PErr
  | .loadMeta, _ => .generic
  | .saveMeta, _ => .generic
  | _, k => fsErrTo k

/-- Same classification for `duplicate_profile`. -/
def dupFaultErr : DupStep → FsErr → PErr
  | .dupLoadMeta, _ => .generic
  | .dupSaveMeta, _ => .generic
  | _, k => fsErrTo k

/-- A name the cleaning flags protect: contains `Cookie`, `History`,
`Visited` or `Top Sites`. -/
def protectedName (n : String) : Bool :=
  containsStr "Cookie" n || containsStr "History" n || containsStr "Visited" n ||
    containsStr "Top Sites" n

/-- The record-field effect of `update_profile`: each provided optional
argument overwrites the corresponding field, in the source's order. -/
def updFields (r : ProfileMetadata) (fp : Option Fingerprint) (p : Option MProxyConfig)
    (na ea : Option String) : ProfileMetadata :=
  let r1 := match fp with | some f => { r with fingerprint := some f } | none => r
  let r2 := match p with | some q => { r1 with proxy := some q } | none => r1
  let r3 := match na with | some n => { r2 with notes := n } | none => r2
  match ea with | some e2 => { r3 with engine := e2 } | none => r3


/- ===== Theorems ===== -/

theorem trimRight_cons (c : Char) (cs : List Char) :
    trimRight (c :: cs) =
      if trimRight cs = [] then (if isWs c then [] else [c])
      else c :: trimRight cs := by
  cases h : trimRight cs with
  | nil => simp [trimRight, h]
  | cons a l => simp [trimRight, h]

theorem collapseAux_true_eq (s : List Char) :
    collapseAux true s = collapseAux false (s.dropWhile isWs) := by
  induction s with
  | nil => rfl
  | cons c cs ih =>
    by_cases h : isWs c = true
    · simp [collapseAux, h, List.dropWhile, ih]
    · simp [collapseAux, List.dropWhile, h]

theorem pySplitAux_ne_nil (s : List Char) (acc : List Char) (h : acc ≠ []) :
    pySplitAux s acc ≠ [] := by
  induction s generalizing acc with
  | nil => simp [pySplitAux, h]
  | cons c cs ih =>
    by_cases hw : isWs c = true
    · simp [pySplitAux, hw, h]
    · simpa [pySplitAux, hw] using ih (c :: acc) (by simp)

theorem pySplit_nil_iff (s : List Char) :
    pySplit s = [] ↔ s.all isWs = true := by
  induction s with
  | nil => simp [pySplit, pySplitAux]
  | cons c cs ih =>
    by_cases hw : isWs c = true
    · simpa [pySplit, pySplitAux, hw] using ih
    · simp only [pySplit, pySplitAux, hw]
      simp only [List.isEmpty_nil, if_true, List.all_cons, hw, Bool.false_and,
        pySplit] at *
      constructor
      · intro hcontra
        exact absurd hcontra (pySplitAux_ne_nil cs [c] (by simp))
      · intro hcontra; cases hcontra

theorem trimRight_nil_iff (s : List Char) :
    trimRight s = [] ↔ s.all isWs = true := by
  induction s with
  | nil => simp [trimRight]
  | cons c cs ih =>
    rw [trimRight_cons]
    by_cases h : trimRight cs = []
    · simp only [h, if_true, List.all_cons]
      rw [ih] at h
      by_cases hw : isWs c = true <;> simp [hw, h]
    · simp only [h, if_false, List.all_cons]
      constructor
      · intro hcontra; cases hcontra
      · intro hall
        exact absurd (ih.mpr (by simp_all)) h

/-- Key bridge: the source's `"_".join(name.split())` computes exactly the
spec's sanitizer "strip, then collapse each internal whitespace run to one
underscore" (both statements proved by one structural induction, the first
generalized over a nonempty in-progress word `acc`). -/
theorem join_split_eq_collapse (s : List Char) :
    (∀ acc : List Char, acc ≠ [] →
        joinUnderscore (pySplitAux s acc) =
          acc.reverse ++ collapseAux false (trimRight s)) ∧
      joinUnderscore (pySplitAux s []) =
        collapseAux false ((trimRight s).dropWhile isWs) := by
  induction s with
  | nil =>
    constructor
    · intro acc hacc
      simp [pySplitAux, joinUnderscore, collapseAux, trimRight, hacc]
    · simp [pySplitAux, joinUnderscore, collapseAux, trimRight]
  | cons c cs ih =>
    have ih1 := ih.1
    have ih2 := ih.2
    by_cases hw : isWs c = true
    · constructor
      · intro acc hacc
        simp only [pySplitAux, hw, if_true, List.isEmpty_eq_true, hacc, if_false]
        by_cases hnil : pySplitAux cs [] = []
        · have hall : cs.all isWs = true := (pySplit_nil_iff cs).mp hnil
          have htr : trimRight cs = [] := (trimRight_nil_iff cs).mpr hall
          rw [hnil, trimRight_cons, htr]
          simp [joinUnderscore, collapseAux, hw]
        · obtain ⟨w, ws, hws⟩ := List.exists_cons_of_ne_nil hnil
          have htr : trimRight cs ≠ [] := by
            intro hcontra
            exact hnil ((pySplit_nil_iff cs).mpr ((trimRight_nil_iff cs).mp hcontra))
          rw [hws]
          have hjoin : joinUnderscore (acc.reverse :: w :: ws) =
              acc.reverse ++ '_' :: joinUnderscore (w :: ws) := rfl
          rw [hjoin, ← hws]
          have := ih2
          rw [show pySplitAux cs [] = pySplit cs from rfl] at *
          rw [ih2, trimRight_cons, if_neg htr]
          have hc : collapseAux false (c :: trimRight cs) =
              '_' :: collapseAux true (trimRight cs) := by
            simp [collapseAux, hw]
          rw [hc, collapseAux_true_eq]
      · simp only [pySplitAux, hw, if_true, List.isEmpty_nil]
        rw [ih2, trimRight_cons]
        by_cases htr : trimRight cs = []
        · simp [htr, hw]
        · simp only [htr, if_false]
          have : (c :: trimRight cs).dropWhile isWs = (trimRight cs).dropWhile isWs := by
            simp [List.dropWhile, hw]
          rw [this]
    · constructor
      · intro acc hacc
        have hred : pySplitAux (c :: cs) acc = pySplitAux cs (c :: acc) := by
          simp [pySplitAux, hw]
        rw [hred, ih1 (c :: acc) (by simp)]
        rw [trimRight_cons]
        have hstep : ∀ r : List Char, collapseAux false (c :: r) = c :: collapseAux false r := by
          intro r; simp [collapseAux, hw]
        by_cases htr : trimRight cs = []
        · simp [htr, hw, hstep, List.reverse_cons]
        · simp [htr, hstep, List.reverse_cons]
      · have hred : pySplitAux (c :: cs) [] = pySplitAux cs [c] := by
          simp [pySplitAux, hw]
        rw [hred, ih1 [c] (by simp)]
        rw [trimRight_cons]
        by_cases htr : trimRight cs = []
        · simp only [htr, if_true, hw, if_false]
          simp [List.dropWhile, hw, collapseAux, htr]
        · simp only [htr, if_false]
          have : (c :: trimRight cs).dropWhile isWs = c :: trimRight cs := by
            simp [List.dropWhile, hw]
          rw [this]
          simp [collapseAux, hw]

/-- The code's sanitizer agrees everywhere with the spec's description. -/
theorem sanitizeL_eq_collapseL (s : List Char) : sanitizeL s = collapseL s :=
  (join_split_eq_collapse s).2

/-- C1: `profile_dir` sanitizes the name by collapsing internal whitespace
runs to a single underscore (after stripping) and returns `profiles_dir`
joined with the sanitized form; it raises `ProfileValidationError` exactly
when the stripped name is empty or the sanitized form contains `..`, `/`
or `\`. -/
theorem profile_dir_spec (name : String) :
    (profile_dir name = Except.error PErr.validation ↔
        (pyStrip name = "" ∨
          containsStr ".." (pySanitize name) = true ∨
          containsStr "/" (pySanitize name) = true ∨
          containsStr "\\" (pySanitize name) = true))
    ∧ (pyStrip name ≠ "" →
        containsStr ".." (pySanitize name) = false →
        containsStr "/" (pySanitize name) = false →
        containsStr "\\" (pySanitize name) = false →
        profile_dir name = Except.ok (PROFILES_DIR ++ "/" ++ pySanitize name))
    ∧ pySanitize name = specSanitize name := by
  refine ⟨?_, ?_, ?_⟩
  · by_cases h0 : pyStrip name = ""
    · simp [profile_dir, h0]
    · by_cases h1 : containsStr ".." (pySanitize name) = true
      · simp [profile_dir, h0, h1]
      · by_cases h2 : containsStr "/" (pySanitize name) = true
        · simp [profile_dir, h0, h1, h2]
        · by_cases h3 : containsStr "\\" (pySanitize name) = true
          · simp [profile_dir, h0, h1, h2, h3]
          · simp [profile_dir, h0, h1, h2, h3]
  · intro h0 h1 h2 h3
    simp [profile_dir, h0, h1, h2, h3]
  · show pySanitize name = specSanitize name
    unfold pySanitize specSanitize
    rw [sanitizeL_eq_collapseL]

/-- Concrete application of `profile_dir_spec`: the name `" a  b "` is
accepted and mapped to `profiles/a_b`. -/
theorem profile_dir_spec_app :
    profile_dir " a  b " = Except.ok (PROFILES_DIR ++ "/" ++ pySanitize " a  b ") :=
  (profile_dir_spec " a  b ").2.1 (by decide) (by decide) (by decide) (by decide)

example : profile_dir " a  b " = Except.ok "profiles/a_b" := by decide
example : profile_dir "a/b" = Except.error PErr.validation := by decide
example : profile_dir "  " = Except.error PErr.validation := by decide
example : profile_dir "a .. b" = Except.error PErr.validation := by decide

theorem alGet_none_iff {β : Type} (k : String) (l : List (String × β)) :
    alGet k l = none ↔ ∀ e ∈ l, e.1 ≠ k := by
  induction l with
  | nil => simp [alGet]
  | cons e tl ih =>
    by_cases h : e.1 = k
    · simp [alGet, h]
    · simp [alGet, h, ih]

theorem eraseKey_of_alGet_none {β : Type} (k : String) (l : List (String × β))
    (h : alGet k l = none) : eraseKey k l = l := by
  unfold eraseKey
  rw [List.filter_eq_self]
  intro e he
  simpa using (alGet_none_iff k l).mp h e he

theorem alGet_eraseKey_self {β : Type} (k : String) (l : List (String × β)) :
    alGet k (eraseKey k l) = none := by
  induction l with
  | nil => rfl
  | cons e tl ih =>
    by_cases h : e.1 = k
    · simpa [eraseKey, List.filter, h] using ih
    · simpa [eraseKey, List.filter, alGet, h] using ih

theorem alGet_cons {β : Type} (k : String) (e : String × β) (tl : List (String × β)) :
    alGet k (e :: tl) = if e.1 = k then some e.2 else alGet k tl := rfl

theorem alGet_eraseKey_ne {β : Type} (k k2 : String) (l : List (String × β))
    (h : k2 ≠ k) : alGet k2 (eraseKey k l) = alGet k2 l := by
  induction l with
  | nil => rfl
  | cons e tl ih =>
    unfold eraseKey at ih ⊢
    rw [List.filter_cons]
    by_cases he : e.1 = k
    · rw [if_neg (by simp [he])]
      rw [ih, alGet_cons, if_neg (fun hc => h ((hc.symm.trans he) : k2 = k))]
    · rw [if_pos (by simp [he])]
      rw [alGet_cons, alGet_cons]
      by_cases h2 : e.1 = k2
      · rw [if_pos h2, if_pos h2]
      · rw [if_neg h2, if_neg h2, ih]

theorem eraseKey_append {β : Type} (k : String) (l m : List (String × β)) :
    eraseKey k (l ++ m) = eraseKey k l ++ eraseKey k m := by
  unfold eraseKey
  rw [List.filter_append]

theorem alGet_append_of_none {β : Type} (k : String) (l m : List (String × β))
    (h : alGet k l = none) : alGet k (l ++ m) = alGet k m := by
  induction l with
  | nil => rfl
  | cons e tl ih =>
    rw [alGet_cons] at h
    by_cases he : e.1 = k
    · rw [if_pos he] at h; cases h
    · rw [if_neg he] at h
      rw [List.cons_append, alGet_cons, if_neg he]
      exact ih h

theorem alGet_append_of_some {β : Type} (k : String) (l m : List (String × β)) (v : β)
    (h : alGet k l = some v) : alGet k (l ++ m) = some v := by
  induction l with
  | nil => cases h
  | cons e tl ih =>
    rw [alGet_cons] at h
    rw [List.cons_append, alGet_cons]
    by_cases he : e.1 = k
    · rw [if_pos he] at h; rw [if_pos he]; exact h
    · rw [if_neg he] at h; rw [if_neg he]; exact ih h

theorem setKey_of_alGet_none {β : Type} (k : String) (v : β) (l : List (String × β))
    (h : alGet k l = none) : setKey k v l = l ++ [(k, v)] := by
  unfold setKey
  rw [h]
  rfl

theorem alGet_mapSet_self {β : Type} (k : String) (v : β) (l : List (String × β))
    (hs : (alGet k l).isSome = true) :
    alGet k (l.map (fun e => if e.1 = k then (k, v) else e)) = some v := by
  induction l with
  | nil => simp [alGet] at hs
  | cons e tl ih =>
    rw [List.map_cons]
    by_cases he : e.1 = k
    · simp only [if_pos he, alGet_cons]
      simp
    · simp only [if_neg he, alGet_cons]
      rw [alGet_cons, if_neg he] at hs
      exact ih hs

theorem alGet_mapSet_ne {β : Type} (k k2 : String) (v : β) (l : List (String × β))
    (h : k2 ≠ k) :
    alGet k2 (l.map (fun e => if e.1 = k then (k, v) else e)) = alGet k2 l := by
  induction l with
  | nil => rfl
  | cons e tl ih =>
    rw [List.map_cons, alGet_cons]
    by_cases he : e.1 = k
    · simp only [if_pos he]
      rw [alGet_cons, if_neg (show ¬((k, v).1 = k2) from fun hc => h hc.symm),
        if_neg (fun hc : e.1 = k2 => h (hc.symm.trans he))]
      exact ih
    · simp only [if_neg he]
      rw [alGet_cons]
      by_cases h2 : e.1 = k2
      · rw [if_pos h2, if_pos h2]
      · rw [if_neg h2, if_neg h2]
        exact ih

theorem alGet_singleton_ne {β : Type} (k k2 : String) (v : β) (h : k2 ≠ k) :
    alGet k2 [(k, v)] = none := by
  rw [alGet_cons, if_neg (show ¬((k, v).1 = k2) from fun hc => h hc.symm)]
  rfl

theorem alGet_setKey_self {β : Type} (k : String) (v : β) (l : List (String × β)) :
    alGet k (setKey k v l) = some v := by
  unfold setKey
  by_cases hs : (alGet k l).isSome = true
  · rw [if_pos hs]
    exact alGet_mapSet_self k v l hs
  · rw [if_neg hs]
    have hn : alGet k l = none := by
      cases hh : alGet k l with
      | none => rfl
      | some w => rw [hh] at hs; simp at hs
    rw [alGet_append_of_none k l _ hn, alGet_cons, if_pos rfl]

theorem alGet_setKey_ne {β : Type} (k k2 : String) (v : β) (l : List (String × β))
    (h : k2 ≠ k) : alGet k2 (setKey k v l) = alGet k2 l := by
  unfold setKey
  by_cases hs : (alGet k l).isSome = true
  · rw [if_pos hs]
    exact alGet_mapSet_ne k k2 v l h
  · rw [if_neg hs]
    cases hh : alGet k2 l with
    | some w => exact alGet_append_of_some k2 l _ w hh
    | none => rw [alGet_append_of_none k2 l _ hh]; exact alGet_singleton_ne k k2 v h

/-- C2: when the metadata file exists but is not valid JSON, `_load_metadata`
surfaces the corrupt-metadata error (`ProfileIOError("Corrupted metadata
file: ...")`, passed through unchanged by the decorator's `except
ProfileError: raise` — the `CorruptStateError` of the spec taxonomy,
distinct from every other error of the module) instead of silently
returning an empty mapping; when the file is absent it returns an empty
mapping. -/
theorem load_metadata_corrupt_spec :
    load_metadata MetaFile.invalid = Except.error PErr.ioCorruptMetadata ∧
    load_metadata MetaFile.absent = Except.ok [] ∧
    PErr.ioCorruptMetadata ≠ PErr.ioPermission ∧
    PErr.ioCorruptMetadata ≠ PErr.ioSystem ∧
    PErr.ioCorruptMetadata ≠ PErr.generic ∧
    PErr.ioCorruptMetadata ≠ PErr.validation ∧
    PErr.ioCorruptMetadata ≠ PErr.notFound ∧
    PErr.ioCorruptMetadata ≠ PErr.alreadyExists := by
  refine ⟨rfl, rfl, ?_, ?_, ?_, ?_, ?_, ?_⟩ <;> decide

/-- C4 (code bug): `create_profile` on an already existing profile does not
raise `ProfileAlreadyExistsError` and does not leave the filesystem
unchanged — the internal `ProfileAlreadyExistsError` falls into the
catch-all `except Exception` handler, whose "clean up partially created
profile directory" branch sees that `pdir` exists and deletes the
pre-existing directory, then re-raises the base `ProfileError`; likewise
`delete_profile` on a nonexistent profile surfaces the base `ProfileError`
rather than `ProfileNotFoundError` (there the state is unchanged). -/
theorem create_existing_destroys_dir :
    create_profile "chromedriver" "t0" c0 none stC4 "work" "windows" none none "" "chromedriver"
      = (Except.error PErr.generic, ⟨[], []⟩) ∧
    (create_profile "chromedriver" "t0" c0 none stC4 "work" "windows" none none "" "chromedriver").1
      ≠ Except.error PErr.alreadyExists ∧
    alGet "work" stC4.dirs = some [("x.bin", FileData.blob "old")] ∧
    delete_profile stC10 "gone" = (Except.error PErr.generic, stC10) := by
  refine ⟨?_, ?_, ?_, ?_⟩ <;> decide

/-- C10 (counterexample): on a state with a stale record whose directory is
absent, `delete_profile` does raise — but the error is the base
`ProfileError` (the internal `ProfileNotFoundError` is swallowed by `except
Exception`), not `ProfileNotFoundError` as the claim states. -/
theorem delete_profile_counterexample :
    delete_profile stC10 "ghost" = (Except.error PErr.generic, stC10) ∧
    (delete_profile stC10 "ghost").1 ≠ Except.error PErr.notFound ∧
    (alGet "ghost" stC10.store).isSome = true := by
  refine ⟨?_, ?_, ?_⟩ <;> decide

/-- C10 (amended): `delete_profile` decides existence solely from the
presence of the on-disk directory: when the directory is absent it raises
(the base `ProfileError` wrapping the not-found case) and leaves the state
— including any stale record — unchanged; when the directory exists it
deletes the directory, drops the record if one exists, and returns true. -/
theorem delete_profile_amended :
    (∀ st name pth, profile_dir name = Except.ok pth →
        alGet (pySanitize name) st.dirs = none →
        delete_profile st name = (Except.error PErr.generic, st)) ∧
    (∀ st name pth t, profile_dir name = Except.ok pth →
        alGet (pySanitize name) st.dirs = some t →
        delete_profile st name =
          (Except.ok true, ⟨eraseKey (pySanitize name) st.dirs, eraseKey name st.store⟩)) := by
  constructor
  · intro st name pth hv hd
    simp only [delete_profile, hv, hd]
  · intro st name pth t hv hd
    simp only [delete_profile, hv, hd]
    by_cases hs : (alGet name st.store).isSome = true
    · simp only [hs, if_true]
    · have hn : alGet name st.store = none := by
        cases hh : alGet name st.store with
        | none => rfl
        | some w => rw [hh] at hs; simp at hs
      simp only [hs, Bool.false_eq_true, if_false]
      rw [eraseKey_of_alGet_none name st.store hn]

/-- Concrete application of `delete_profile_amended`: a missing directory
leaves the fixture state untouched; deleting `alpha` empties it. -/
theorem delete_profile_amended_app :
    delete_profile stC8 "missing" = (Except.error PErr.generic, stC8) ∧
    delete_profile stC8 "alpha" = (Except.ok true, ⟨[], []⟩) := by
  constructor
  · exact delete_profile_amended.1 stC8 "missing" "profiles/missing" (by decide) (by decide)
  · exact (delete_profile_amended.2 stC8 "alpha" "profiles/alpha"
      [("notes.txt", FileData.text "n")] (by decide) (by decide)).trans (by decide)

/-- C9 (counterexample): a registry entry for `work` exists but its pid is
dead, so `psutil.Process(pid)` raises and `BrowserProcess.kill` returns
`False`: `kill_process` returns `False` even though an entry existed, and
the entry is not removed — refuting both halves of the claim. -/
theorem kill_process_counterexample :
    kill_process regC9 wC9 "work" = (false, regC9, wC9) ∧
    (alGet "work" regC9).isSome = true := by
  refine ⟨?_, ?_⟩ <;> decide

/-- C9 (amended): `kill_process` returns false when no registry entry
exists, and also when an entry exists but its tracked process is no longer
alive (in which case the entry is kept); when the entry's process is alive
it kills the process together with its recursive children and removes the
registry entry. -/
theorem kill_process_amended :
    (∀ reg w name, alGet name reg = none →
        kill_process reg w name = (false, reg, w)) ∧
    (∀ reg w name p, alGet name reg = some p → p.pid ∉ w.alive →
        kill_process reg w name = (false, reg, w)) ∧
    (∀ reg w name p, alGet name reg = some p → p.pid ∈ w.alive →
        kill_process reg w name =
          (true, eraseKey name reg,
            { w with
              alive := w.alive.filter (fun q => decide (q ≠ p.pid) && decide (q ∉ w.kids p.pid)) })) := by
  refine ⟨?_, ?_, ?_⟩
  · intro reg w name h
    simp only [kill_process, h]
  · intro reg w name p hp hna
    simp [kill_process, hp, procKill, if_neg hna]
  · intro reg w name p hp hin
    simp [kill_process, hp, procKill, if_pos hin]

/-- Concrete application of `kill_process_amended`: killing `work` with pid
42 alive removes pids 42 and its child 43 and drops the registry entry. -/
theorem kill_process_amended_app :
    kill_process [("work", ⟨"work", 42, false⟩)] wC9b "work" =
      (true, [], ⟨[44], [(42, [43])]⟩) :=
  (kill_process_amended.2.2 [("work", ⟨"work", 42, false⟩)] wC9b "work"
    ⟨"work", 42, false⟩ (by decide) (by decide)).trans (by decide)

/-- C6: with `keep_cookies` and `keep_history` both true, cleaning never
deletes a file (or cache directory) whose name contains `Cookie`,
`History`, `Visited` or `Top Sites`; and for identical flag values
`get_cleanable_size` returns exactly the bytes a subsequent
`clean_profile_cache` on the unchanged directory reports as freed — the two
use the same matching predicate. -/
theorem cache_preview_matches_clean :
    (∀ keep_cookies keep_history d,
        get_cleanable_size keep_cookies keep_history d =
          (clean_profile_cache keep_cookies keep_history d).1) ∧
    (∀ l : CacheLoc, ∀ e ∈ l.files, protectedName e.1 = true →
        e ∈ ((cleanLoc true true l).2).files) ∧
    (∀ l : CacheLoc, ∀ e ∈ l.dirs, protectedName e.1 = true →
        e ∈ ((cleanLoc true true l).2).dirs) ∧
    (∀ pd : CacheProfileDir,
        (clean_profile_cache true true (some pd)).2 =
          some { root := (cleanLoc true true pd.root).2,
                 hasDefault := pd.hasDefault,
                 dflt := if pd.hasDefault then (cleanLoc true true pd.dflt).2 else pd.dflt }) := by
  refine ⟨?_, ?_, ?_, ?_⟩
  · intro kc kh d
    cases d with
    | none => rfl
    | some pd =>
      cases hD : pd.hasDefault <;>
        simp [get_cleanable_size, clean_profile_cache, hD, sizeLoc, cleanLoc,
          files_to_count, files_to_clean]
  · intro l e he hp
    have hall : ∀ m ∈ files_to_clean true true, protectedName m = false := by decide
    refine List.mem_filter.mpr ⟨he, ?_⟩
    have hnm : e.1 ∉ files_to_clean true true := by
      intro hmem
      rw [hall e.1 hmem] at hp
      cases hp
    exact decide_eq_true hnm
  · intro l e he hp
    have hall : ∀ m ∈ CACHE_DIRS, protectedName m = false := by decide
    refine List.mem_filter.mpr ⟨he, ?_⟩
    have hnm : e.1 ∉ CACHE_DIRS := by
      intro hmem
      rw [hall e.1 hmem] at hp
      cases hp
    exact decide_eq_true hnm
  · intro pd
    cases hD : pd.hasDefault <;> simp [clean_profile_cache, hD]

/-- Concrete application of `cache_preview_matches_clean`: on the fixture
directory the preview equals the freed bytes, and the protected `Cookies`
file survives cleaning with both keep flags set. -/
theorem cache_preview_matches_clean_app :
    get_cleanable_size true true (some cdC6) =
      (clean_profile_cache true true (some cdC6)).1 ∧
    ("Cookies", 5) ∈ ((cleanLoc true true cdC6.root).2).files := by
  constructor
  · exact cache_preview_matches_clean.1 true true (some cdC6)
  · exact cache_preview_matches_clean.2.1 cdC6.root ("Cookies", 5) (by decide) (by decide)

/-- C7 (counterexample): `duplicate_profile` draws the duplicate's
fingerprint with fresh random choices, so a draw can coincide with the
source's stored fingerprint: on this fixture the duplicate `work2` has
exactly the same `user_agent` and WebGL renderer as `work`, refuting the
claim that they always differ. -/
theorem duplicate_fingerprint_coincidence :
    ((duplicate_profile "chromedriver" "t1" c0 none stC7 "work" "work2").1 = Except.ok true) ∧
    (alGet "work2" (duplicate_profile "chromedriver" "t1" c0 none stC7 "work" "work2").2.store).map
        (fun r => r.fingerprint.map Fingerprint.user_agent) =
      (alGet "work" stC7.store).map (fun r => r.fingerprint.map Fingerprint.user_agent) ∧
    (alGet "work2" (duplicate_profile "chromedriver" "t1" c0 none stC7 "work" "work2").2.store).map
        (fun r => r.fingerprint.map Fingerprint.webgl_renderer) =
      (alGet "work" stC7.store).map (fun r => r.fingerprint.map Fingerprint.webgl_renderer) ∧
    (alGet "work" stC7.store).map (fun r => r.fingerprint.isSome) = some true := by
  refine ⟨?_, ?_, ?_, ?_⟩ <;> decide

/-- C5 (counterexample): `update_profile` on a missing name surfaces the
base `ProfileError`, not `ProfileNotFoundError`; and the `proxy` parameter
has no explicit "set to none" value — `None` means "leave unchanged"
(`if proxy is not None`), so on a profile whose proxy is set, no argument
value can make the stored proxy `None`: an intentional proxy-clear is not
expressible through `update_profile`. -/
theorem update_profile_counterexample :
    (update_profile stC5 "ghost" none none none none).1 = Except.error PErr.generic ∧
    (update_profile stC5 "ghost" none none none none).1 ≠ Except.error PErr.notFound ∧
    (∀ p : Option MProxyConfig,
      (alGet "work" (update_profile stC5 "work" none p none none).2.store).map
        (fun r => r.proxy.isSome) = some true) ∧
    (alGet "work" stC5.store).map (fun r => r.proxy.isSome) = some true := by
  refine ⟨by decide, by decide, ?_, by decide⟩
  intro p
  cases p with
  | none => decide
  | some q => rfl

/-- C5 (amended): `update_profile` raises the base `ProfileError` (the
internal `ProfileNotFoundError` is swallowed by `except Exception`) when the
profile is absent; each provided optional argument overwrites only the
corresponding record field and auxiliary file and unspecified fields are
untouched; but `proxy = None` means "leave unchanged" — there is no explicit
"set to none" value, so a proxy-clear is not expressible. -/
theorem update_profile_amended :
    (∀ r fp p na ea, updFields r fp p na ea =
        { r with
          fingerprint := match fp with | some f => some f | none => r.fingerprint,
          proxy := match p with | some q => some q | none => r.proxy,
          notes := match na with | some n => n | none => r.notes,
          engine := match ea with | some e2 => e2 | none => r.engine }) ∧
    (∀ st name fp p na ea, alGet name st.store = none →
        update_profile st name fp p na ea = (Except.error PErr.generic, st)) ∧
    (∀ st name pth t r fp p na ea,
        alGet name st.store = some r →
        profile_dir name = Except.ok pth →
        alGet (pySanitize name) st.dirs = some t →
        (update_profile st name fp p na ea).1 = Except.ok true ∧
        (update_profile st name fp p na ea).2.store =
          setKey name (updFields r fp p na ea) st.store ∧
        (∀ d, d ≠ pySanitize name →
            alGet d (update_profile st name fp p na ea).2.dirs = alGet d st.dirs) ∧
        (∀ f, fp = some f →
            (alGet (pySanitize name) (update_profile st name fp p na ea).2.dirs).map
              (alGet "fingerprint.json") = some (some (FileData.fpJson f))) ∧
        (∀ q, p = some q →
            (alGet (pySanitize name) (update_profile st name fp p na ea).2.dirs).map
              (alGet "proxy.json") = some (some (FileData.proxyJson q))) ∧
        (∀ n, na = some n →
            (alGet (pySanitize name) (update_profile st name fp p na ea).2.dirs).map
              (alGet "notes.txt") = some (some (FileData.text n)))) := by
  refine ⟨?_, ?_, ?_⟩
  · intro r fp p na ea
    cases fp <;> cases p <;> cases na <;> cases ea <;> rfl
  · intro st name fp p na ea h
    simp only [update_profile, h]
  · intro st name pth t r fp p na ea hs hv hd
    cases fp with
    | none =>
      cases p with
      | none =>
        cases na with
        | none =>
          refine ⟨?_, ?_, ?_, ?_, ?_, ?_⟩
          · simp only [update_profile, hs, hv, writeFile, hd, alGet_setKey_self]
          · simp only [update_profile, hs, hv, writeFile, hd, alGet_setKey_self, updFields]
          · intro d hdne
            simp only [update_profile, hs, hv, writeFile, hd, alGet_setKey_self]
            repeat rw [alGet_setKey_ne _ d _ _ hdne]
          · intro f hf; cases hf
          · intro q hq; cases hq
          · intro n hn; cases hn
        | some n0 =>
          refine ⟨?_, ?_, ?_, ?_, ?_, ?_⟩
          · simp only [update_profile, hs, hv, writeFile, hd, alGet_setKey_self]
          · simp only [update_profile, hs, hv, writeFile, hd, alGet_setKey_self, updFields]
          · intro d hdne
            simp only [update_profile, hs, hv, writeFile, hd, alGet_setKey_self]
            (repeat rw [alGet_setKey_ne _ d _ _ hdne]) <;> rfl
          · intro f hf; cases hf
          · intro q hq; cases hq
          · intro n hn
            injection hn with hn2
            subst hn2
            simp only [update_profile, hs, hv, writeFile, hd, alGet_setKey_self,
              Option.map_some']
            try rw [alGet_setKey_self]
      | some q0 =>
        cases na with
        | none =>
          refine ⟨?_, ?_, ?_, ?_, ?_, ?_⟩
          · simp only [update_profile, hs, hv, writeFile, hd, alGet_setKey_self]
          · simp only [update_profile, hs, hv, writeFile, hd, alGet_setKey_self, updFields]
          · intro d hdne
            simp only [update_profile, hs, hv, writeFile, hd, alGet_setKey_self]
            (repeat rw [alGet_setKey_ne _ d _ _ hdne]) <;> rfl
          · intro f hf; cases hf
          · intro q hq
            injection hq with hq2
            subst hq2
            simp only [update_profile, hs, hv, writeFile, hd, alGet_setKey_self,
              Option.map_some']
            try rw [alGet_setKey_self]
          · intro n hn; cases hn
        | some n0 =>
          refine ⟨?_, ?_, ?_, ?_, ?_, ?_⟩
          · simp only [update_profile, hs, hv, writeFile, hd, alGet_setKey_self]
          · simp only [update_profile, hs, hv, writeFile, hd, alGet_setKey_self, updFields]
          · intro d hdne
            simp only [update_profile, hs, hv, writeFile, hd, alGet_setKey_self]
            (repeat rw [alGet_setKey_ne _ d _ _ hdne]) <;> rfl
          · intro f hf; cases hf
          · intro q hq
            injection hq with hq2
            subst hq2
            simp only [update_profile, hs, hv, writeFile, hd, alGet_setKey_self,
              Option.map_some']
            rw [alGet_setKey_ne _ _ _ _ (by decide : ("proxy.json" : String) ≠ "notes.txt"),
              alGet_setKey_self]
          · intro n hn
            injection hn with hn2
            subst hn2
            simp only [update_profile, hs, hv, writeFile, hd, alGet_setKey_self,
              Option.map_some']
            try rw [alGet_setKey_self]
    | some f0 =>
      cases p with
      | none =>
        cases na with
        | none =>
          refine ⟨?_, ?_, ?_, ?_, ?_, ?_⟩
          · simp only [update_profile, hs, hv, writeFile, hd, alGet_setKey_self]
          · simp only [update_profile, hs, hv, writeFile, hd, alGet_setKey_self, updFields]
          · intro d hdne
            simp only [update_profile, hs, hv, writeFile, hd, alGet_setKey_self]
            (repeat rw [alGet_setKey_ne _ d _ _ hdne]) <;> rfl
          · intro f hf
            injection hf with hf2
            subst hf2
            simp only [update_profile, hs, hv, writeFile, hd, alGet_setKey_self,
              Option.map_some']
            try rw [alGet_setKey_self]
          · intro q hq; cases hq
          · intro n hn; cases hn
        | some n0 =>
          refine ⟨?_, ?_, ?_, ?_, ?_, ?_⟩
          · simp only [update_profile, hs, hv, writeFile, hd, alGet_setKey_self]
          · simp only [update_profile, hs, hv, writeFile, hd, alGet_setKey_self, updFields]
          · intro d hdne
            simp only [update_profile, hs, hv, writeFile, hd, alGet_setKey_self]
            (repeat rw [alGet_setKey_ne _ d _ _ hdne]) <;> rfl
          · intro f hf
            injection hf with hf2
            subst hf2
            simp only [update_profile, hs, hv, writeFile, hd, alGet_setKey_self,
              Option.map_some']
            rw [alGet_setKey_ne _ _ _ _ (by decide : ("fingerprint.json" : String) ≠ "notes.txt"),
              alGet_setKey_self]
          · intro q hq; cases hq
          · intro n hn
            injection hn with hn2
            subst hn2
            simp only [update_profile, hs, hv, writeFile, hd, alGet_setKey_self,
              Option.map_some']
            try rw [alGet_setKey_self]
      | some q0 =>
        cases na with
        | none =>
          refine ⟨?_, ?_, ?_, ?_, ?_, ?_⟩
          · simp only [update_profile, hs, hv, writeFile, hd, alGet_setKey_self]
          · simp only [update_profile, hs, hv, writeFile, hd, alGet_setKey_self, updFields]
          · intro d hdne
            simp only [update_profile, hs, hv, writeFile, hd, alGet_setKey_self]
            (repeat rw [alGet_setKey_ne _ d _ _ hdne]) <;> rfl
          · intro f hf
            injection hf with hf2
            subst hf2
            simp only [update_profile, hs, hv, writeFile, hd, alGet_setKey_self,
              Option.map_some']
            rw [alGet_setKey_ne _ _ _ _ (by decide : ("fingerprint.json" : String) ≠ "proxy.json"),
              alGet_setKey_self]
          · intro q hq
            injection hq with hq2
            subst hq2
            simp only [update_profile, hs, hv, writeFile, hd, alGet_setKey_self,
              Option.map_some']
            try rw [alGet_setKey_self]
          · intro n hn; cases hn
        | some n0 =>
          refine ⟨?_, ?_, ?_, ?_, ?_, ?_⟩
          · simp only [update_profile, hs, hv, writeFile, hd, alGet_setKey_self]
          · simp only [update_profile, hs, hv, writeFile, hd, alGet_setKey_self, updFields]
          · intro d hdne
            simp only [update_profile, hs, hv, writeFile, hd, alGet_setKey_self]
            (repeat rw [alGet_setKey_ne _ d _ _ hdne]) <;> rfl
          · intro f hf
            injection hf with hf2
            subst hf2
            simp only [update_profile, hs, hv, writeFile, hd, alGet_setKey_self,
              Option.map_some']
            rw [alGet_setKey_ne _ _ _ _ (by decide : ("fingerprint.json" : String) ≠ "notes.txt"),
              alGet_setKey_ne _ _ _ _ (by decide : ("fingerprint.json" : String) ≠ "proxy.json"),
              alGet_setKey_self]
          · intro q hq
            injection hq with hq2
            subst hq2
            simp only [update_profile, hs, hv, writeFile, hd, alGet_setKey_self,
              Option.map_some']
            rw [alGet_setKey_ne _ _ _ _ (by decide : ("proxy.json" : String) ≠ "notes.txt"),
              alGet_setKey_self]
          · intro n hn
            injection hn with hn2
            subst hn2
            simp only [update_profile, hs, hv, writeFile, hd, alGet_setKey_self,
              Option.map_some']
            try rw [alGet_setKey_self]

/-- Concrete application of `update_profile_amended`: updating only the
notes of `work` keeps its proxy and rewrites `notes.txt`. -/
theorem update_profile_amended_app :
    (update_profile stC5 "work" none none (some "memo") none).1 = Except.ok true ∧
    (update_profile stC5 "work" none none (some "memo") none).2.store =
      setKey "work" (updFields recWork none none (some "memo") none) stC5.store := by
  have h := update_profile_amended.2.2 stC5 "work" "profiles/work" [] recWork
    none none (some "memo") none (by decide) (by decide) (by decide)
  exact ⟨h.1, h.2.1⟩

theorem removeDir_fresh (st : SysState) (safe : String) (t : DirTree)
    (h : alGet safe st.dirs = none) :
    removeDir safe { st with dirs := st.dirs ++ [(safe, t)] } = st := by
  unfold removeDir
  simp only [eraseKey_append]
  rw [eraseKey_of_alGet_none safe st.dirs h]
  have h2 : eraseKey safe [(safe, t)] = [] := by
    simp [eraseKey, List.filter]
  rw [h2, List.append_nil]

/-- C3: when a filesystem fault strikes any `create_profile` step after the
profile directory was created, the partially created directory is removed
and a typed error propagates (a `ProfileIOError` for raw OS faults at the
file writes, the base `ProfileError` for faults inside the metadata
load/save), leaving the state exactly as before the call; the same rollback
holds for `duplicate_profile`'s partially copied target directory. -/
theorem create_duplicate_rollback :
    (∀ cfg now c st name os_type cua proxy notes engine pth step k,
        profile_dir name = Except.ok pth →
        alGet (pySanitize name) st.dirs = none →
        step ≠ CreateStep.mkdirStep →
        (step = CreateStep.writeProxy → proxy ≠ none) →
        create_profile cfg now c (some (step, k)) st name os_type cua proxy notes engine =
          (Except.error (createFaultErr step k), st)) ∧
    (∀ cfg now c st source new pS pN srcTree step k,
        profile_dir source = Except.ok pS →
        profile_dir new = Except.ok pN →
        alGet (pySanitize source) st.dirs = some srcTree →
        alGet (pySanitize new) st.dirs = none →
        ((step = DupStep.dupWriteFp ∨ step = DupStep.dupSaveMeta) →
            (alGet source st.store).isSome = true) →
        duplicate_profile cfg now c (some (step, k)) st source new =
          (Except.error (dupFaultErr step k), st)) := by
  constructor
  · intro cfg now c st name os_type cua proxy notes engine pth step k hv hd hstep hproxy
    cases step with
    | mkdirStep => exact absurd rfl hstep
    | writeNotes =>
      simp only [create_profile, hv, hd, Option.isSome_none, Bool.false_eq_true, if_false]
      rw [removeDir_fresh st (pySanitize name) _ hd]
      rfl
    | writeFp =>
      simp only [create_profile, hv, hd, Option.isSome_none, Bool.false_eq_true, if_false]
      rw [removeDir_fresh st (pySanitize name) _ hd]
      rfl
    | writeProxy =>
      cases hp : proxy with
      | none => exact absurd hp (hproxy rfl)
      | some q =>
        simp only [create_profile, hv, hd, Option.isSome_none, Bool.false_eq_true, if_false]
        rw [removeDir_fresh st (pySanitize name) _ hd]
        rfl
    | loadMeta =>
      cases hp : proxy with
      | none =>
        simp only [create_profile, hv, hd, Option.isSome_none, Bool.false_eq_true, if_false]
        rw [removeDir_fresh st (pySanitize name) _ hd]
        rfl
      | some q =>
        simp only [create_profile, hv, hd, Option.isSome_none, Bool.false_eq_true, if_false]
        rw [removeDir_fresh st (pySanitize name) _ hd]
        rfl
    | saveMeta =>
      cases hp : proxy with
      | none =>
        simp only [create_profile, hv, hd, Option.isSome_none, Bool.false_eq_true, if_false]
        rw [removeDir_fresh st (pySanitize name) _ hd]
        rfl
      | some q =>
        simp only [create_profile, hv, hd, Option.isSome_none, Bool.false_eq_true, if_false]
        rw [removeDir_fresh st (pySanitize name) _ hd]
        rfl
  · intro cfg now c st source new pS pN srcTree step k hvS hvN hdS hdN hsrc
    cases step with
    | copyTree =>
      simp only [duplicate_profile, hvS, hvN, hdS, hdN, Option.isSome_none,
        Bool.false_eq_true, if_false]
      rw [removeDir_fresh st (pySanitize new) _ hdN]
      rfl
    | dupLoadMeta =>
      simp only [duplicate_profile, hvS, hvN, hdS, hdN, Option.isSome_none,
        Bool.false_eq_true, if_false]
      rw [removeDir_fresh st (pySanitize new) _ hdN]
      rfl
    | dupWriteFp =>
      have hsome := hsrc (Or.inl rfl)
      cases hsr : alGet source st.store with
      | none => rw [hsr] at hsome; simp at hsome
      | some src =>
        simp only [duplicate_profile, hvS, hvN, hdS, hdN, hsr, Option.isSome_none,
          Bool.false_eq_true, if_false]
        rw [removeDir_fresh st (pySanitize new) _ hdN]
        rfl
    | dupSaveMeta =>
      have hsome := hsrc (Or.inr rfl)
      cases hsr : alGet source st.store with
      | none => rw [hsr] at hsome; simp at hsome
      | some src =>
        simp only [duplicate_profile, hvS, hvN, hdS, hdN, hsr, Option.isSome_none,
          Bool.false_eq_true, if_false]
        rw [removeDir_fresh st (pySanitize new) _ hdN]
        rfl

/-- Concrete application of `create_duplicate_rollback`: a permission fault
at the notes write rolls a fresh `alpha` back to the initial state with a
`ProfileIOError`; an OS fault at the metadata save during duplication rolls
the copied `work2` back with the base `ProfileError`. -/
theorem create_duplicate_rollback_app :
    create_profile "chromedriver" "t0" c0 (some (CreateStep.writeNotes, FsErr.permissionDenied))
        stC10 "alpha" "windows" none none "" "chromedriver" =
      (Except.error PErr.ioPermission, stC10) ∧
    duplicate_profile "chromedriver" "t1" c0 (some (DupStep.dupSaveMeta, FsErr.osError))
        stC7 "work" "work2" = (Except.error PErr.generic, stC7) := by
  constructor
  · exact (create_duplicate_rollback.1 "chromedriver" "t0" c0 stC10 "alpha" "windows"
      none none "" "chromedriver" "profiles/alpha" CreateStep.writeNotes
      FsErr.permissionDenied (by decide) (by decide) (by decide)
      (fun h => absurd h (by decide))).trans (by decide)
  · exact (create_duplicate_rollback.2 "chromedriver" "t1" c0 stC7 "work" "work2"
      "profiles/work" "profiles/work2" [("fingerprint.json", FileData.fpJson fpW)]
      DupStep.dupSaveMeta FsErr.osError (by decide) (by decide) (by decide) (by decide)
      (fun _ => by decide)).trans (by decide)

/-- C7 (amended): `duplicate_profile` copies the source directory tree,
writes a freshly drawn fingerprint over the copied one (a function of the
new random draws only — never read from the source, though a draw may
coincide with the source's values), and persists a new record whose proxy
equals the source's exactly, carrying over only the proxy, with notes
annotated with provenance. -/
theorem duplicate_profile_amended :
    ∀ cfg now c st source new pS pN srcTree r,
      profile_dir source = Except.ok pS →
      profile_dir new = Except.ok pN →
      alGet (pySanitize source) st.dirs = some srcTree →
      alGet (pySanitize new) st.dirs = none →
      alGet source st.store = some r →
      (duplicate_profile cfg now c none st source new).1 = Except.ok true ∧
      alGet (pySanitize new) (duplicate_profile cfg now c none st source new).2.dirs =
        some (setKey "fingerprint.json"
          (FileData.fpJson (FingerprintGenerator.generate "windows" none c)) srcTree) ∧
      alGet new (duplicate_profile cfg now c none st source new).2.store =
        some (mkMeta cfg new now (pathStr new)
          (some (FingerprintGenerator.generate "windows" none c)) r.proxy
          ("Duplicated from: " ++ source ++ "\n" ++ r.notes) "chromedriver" "") := by
  intro cfg now c st source new pS pN srcTree r hvS hvN hdS hdN hsrc
  refine ⟨?_, ?_, ?_⟩
  · simp only [duplicate_profile, hvS, hvN, hdS, hdN, hsrc, Option.isSome_none,
      Bool.false_eq_true, if_false]
  · simp only [duplicate_profile, hvS, hvN, hdS, hdN, hsrc, Option.isSome_none,
      Bool.false_eq_true, if_false]
    rw [alGet_append_of_none _ _ _ hdN, alGet_cons, if_pos rfl]
  · simp only [duplicate_profile, hvS, hvN, hdS, hdN, hsrc, Option.isSome_none,
      Bool.false_eq_true, if_false]
    exact alGet_setKey_self new _ st.store

/-- Concrete application of `duplicate_profile_amended`: duplicating `work`
as `work2` persists a record with the freshly drawn fingerprint, `work`'s
proxy, and provenance-annotated notes. -/
theorem duplicate_profile_amended_app :
    alGet "work2" (duplicate_profile "chromedriver" "t1" c0 none stC7 "work" "work2").2.store =
      some (mkMeta "chromedriver" "work2" "t1" (pathStr "work2") (some fpW) (some p0)
        "Duplicated from: work\nn" "chromedriver" "") :=
  ((duplicate_profile_amended "chromedriver" "t1" c0 stC7 "work" "work2"
    "profiles/work" "profiles/work2" [("fingerprint.json", FileData.fpJson fpW)] recWork7
    (by decide) (by decide) (by decide) (by decide) (by decide)).2.2).trans (by decide)

theorem alGet_renameMap_new {β : Type} (so sn : String) (l : List (String × β)) (t : β)
    (hso : alGet so l = some t) (hsn : alGet sn l = none) :
    alGet sn (l.map (fun e => if e.1 = so then (sn, e.2) else e)) = some t := by
  induction l with
  | nil => cases hso
  | cons e tl ih =>
    rw [alGet_cons] at hso hsn
    rw [List.map_cons]
    by_cases he : e.1 = so
    · rw [if_pos he] at hso
      simp only [if_pos he]
      rw [alGet_cons, if_pos rfl]
      exact hso
    · rw [if_neg he] at hso
      have hesn : ¬(e.1 = sn) := by
        intro hc; rw [if_pos hc] at hsn; cases hsn
      rw [if_neg hesn] at hsn
      simp only [if_neg he]
      rw [alGet_cons, if_neg hesn]
      exact ih hso hsn

theorem alGet_renameMap_old {β : Type} (so sn : String) (l : List (String × β))
    (hne : sn ≠ so) :
    alGet so (l.map (fun e => if e.1 = so then (sn, e.2) else e)) = none := by
  induction l with
  | nil => rfl
  | cons e tl ih =>
    rw [List.map_cons]
    by_cases he : e.1 = so
    · simp only [if_pos he]
      rw [alGet_cons, if_neg (show ¬((sn, e.2).1 = so) from hne)]
      exact ih
    · simp only [if_neg he]
      rw [alGet_cons, if_neg he]
      exact ih

theorem renameMap_roundtrip {β : Type} (so sn : String) (l : List (String × β))
    (hsn : alGet sn l = none) :
    (l.map (fun e => if e.1 = so then (sn, e.2) else e)).map
        (fun e => if e.1 = sn then (so, e.2) else e) = l := by
  induction l with
  | nil => rfl
  | cons e tl ih =>
    rw [alGet_cons] at hsn
    have hesn : ¬(e.1 = sn) := by
      intro hc; rw [if_pos hc] at hsn; cases hsn
    rw [if_neg hesn] at hsn
    rw [List.map_cons, List.map_cons, ih hsn]
    congr 1
    by_cases he : e.1 = so
    · simp only [if_pos he]
      cases e with
      | mk a b =>
        simp only at he
        rw [he]
        simp
    · simp only [if_neg he, if_neg hesn]

/-- C8: for distinct valid names A and B where A's directory exists (with
any store record for A self-consistent: key = `name` field, `path` =
`profile_dir`) and B is absent from both the directory map and the store,
`rename_profile A B` followed by `rename_profile B A` restores the initial
state: the directory layout is restored literally and the final store
mapping agrees with the initial one on every key — in particular the
record's `created` and `last_launched` timestamps are untouched. -/
theorem rename_roundtrip :
    ∀ st A B pA pB t,
      profile_dir A = Except.ok pA → profile_dir B = Except.ok pB →
      alGet (pySanitize A) st.dirs = some t →
      alGet (pySanitize B) st.dirs = none →
      alGet B st.store = none →
      (∀ r, alGet A st.store = some r → r.name = A ∧ r.path = pathStr A) →
      (rename_profile st A B).1 = Except.ok true ∧
      (rename_profile (rename_profile st A B).2 B A).1 = Except.ok true ∧
      (rename_profile (rename_profile st A B).2 B A).2.dirs = st.dirs ∧
      (∀ k2, alGet k2 (rename_profile (rename_profile st A B).2 B A).2.store =
        alGet k2 st.store) := by
  intro st A B pA pB t hvA hvB hdA hdB hsB hwf
  have hne : pySanitize B ≠ pySanitize A := by
    intro hc
    rw [← hc, hdB] at hdA
    cases hdA
  have hAB : A ≠ B := fun hc => hne (by rw [hc])
  have hd1new : alGet (pySanitize B)
      (st.dirs.map (fun e => if e.1 = pySanitize A then (pySanitize B, e.2) else e)) = some t :=
    alGet_renameMap_new _ _ _ _ hdA hdB
  have hd1old : alGet (pySanitize A)
      (st.dirs.map (fun e => if e.1 = pySanitize A then (pySanitize B, e.2) else e)) = none :=
    alGet_renameMap_old _ _ _ hne
  have hdirs : (st.dirs.map (fun e => if e.1 = pySanitize A then (pySanitize B, e.2) else e)).map
      (fun e => if e.1 = pySanitize B then (pySanitize A, e.2) else e) = st.dirs :=
    renameMap_roundtrip _ _ _ hdB
  cases hsA : alGet A st.store with
  | none =>
    have h1 : rename_profile st A B =
        (Except.ok true,
          ⟨st.dirs.map (fun e => if e.1 = pySanitize A then (pySanitize B, e.2) else e),
            st.store⟩) := by
      simp only [rename_profile, hvA, hvB, hdA, hdB, hsA, Option.isSome_none,
        Bool.false_eq_true, if_false]
    rw [h1]
    have h2 : rename_profile
        (⟨st.dirs.map (fun e => if e.1 = pySanitize A then (pySanitize B, e.2) else e),
          st.store⟩ : SysState) B A =
        (Except.ok true,
          ⟨(st.dirs.map (fun e => if e.1 = pySanitize A then (pySanitize B, e.2) else e)).map
              (fun e => if e.1 = pySanitize B then (pySanitize A, e.2) else e),
            st.store⟩) := by
      simp only [rename_profile, hvB, hvA, hd1new, hd1old, hsB, Option.isSome_none,
        Bool.false_eq_true, if_false]
    rw [h2]
    exact ⟨rfl, rfl, hdirs, fun k2 => rfl⟩
  | some r =>
    have h1 : rename_profile st A B =
        (Except.ok true,
          ⟨st.dirs.map (fun e => if e.1 = pySanitize A then (pySanitize B, e.2) else e),
            setKey B { r with name := B, path := pathStr B } (eraseKey A st.store)⟩) := by
      simp only [rename_profile, hvA, hvB, hdA, hdB, hsA, Option.isSome_none,
        Bool.false_eq_true, if_false]
    rw [h1]
    have h2 : rename_profile
        (⟨st.dirs.map (fun e => if e.1 = pySanitize A then (pySanitize B, e.2) else e),
          setKey B { r with name := B, path := pathStr B } (eraseKey A st.store)⟩ : SysState)
        B A =
        (Except.ok true,
          ⟨(st.dirs.map (fun e => if e.1 = pySanitize A then (pySanitize B, e.2) else e)).map
              (fun e => if e.1 = pySanitize B then (pySanitize A, e.2) else e),
            setKey A { { r with name := B, path := pathStr B } with
                name := A, path := pathStr A }
              (eraseKey B (setKey B { r with name := B, path := pathStr B }
                (eraseKey A st.store)))⟩) := by
      simp only [rename_profile, hvB, hvA, hd1new, hd1old, alGet_setKey_self,
        Option.isSome_none, Bool.false_eq_true, if_false]
    rw [h2]
    have hBe : alGet B (eraseKey A st.store) = none := by
      rw [alGet_eraseKey_ne A B _ (fun hc => hAB hc.symm)]
      exact hsB
    have hstep1 : eraseKey B (setKey B { r with name := B, path := pathStr B }
        (eraseKey A st.store)) = eraseKey A st.store := by
      rw [setKey_of_alGet_none _ _ _ hBe, eraseKey_append,
        eraseKey_of_alGet_none _ _ hBe]
      have hgone : eraseKey B [(B, { r with name := B, path := pathStr B })] = [] := by
        simp [eraseKey, List.filter]
      rw [hgone, List.append_nil]
    have hr2 : ({ { r with name := B, path := pathStr B } with
        name := A, path := pathStr A } : ProfileMetadata) = r := by
      obtain ⟨hn, hp⟩ := hwf r hsA
      cases r with
      | mk n cr pa fpr px no en ll =>
        simp only at hn hp
        rw [hn, hp]
    refine ⟨rfl, rfl, hdirs, ?_⟩
    intro k2
    rw [hstep1, hr2,
      setKey_of_alGet_none _ _ _ (alGet_eraseKey_self A st.store)]
    by_cases hk : k2 = A
    · subst hk
      rw [alGet_append_of_none _ _ _ (alGet_eraseKey_self k2 st.store), alGet_cons,
        if_pos rfl, hsA]
    · cases hh : alGet k2 (eraseKey A st.store) with
      | some v =>
        rw [alGet_append_of_some _ _ _ _ hh]
        rw [alGet_eraseKey_ne A k2 _ hk] at hh
        exact hh.symm
      | none =>
        rw [alGet_append_of_none _ _ _ hh, alGet_singleton_ne A k2 _ hk]
        rw [alGet_eraseKey_ne A k2 _ hk] at hh
        exact hh.symm

/-- Concrete application of `rename_roundtrip`: renaming `alpha` to `beta`
and back restores the fixture state on every observable. -/
theorem rename_roundtrip_app :
    (rename_profile stC8 "alpha" "beta").1 = Except.ok true ∧
    (rename_profile (rename_profile stC8 "alpha" "beta").2 "beta" "alpha").2.dirs = stC8.dirs ∧
    alGet "alpha" (rename_profile (rename_profile stC8 "alpha" "beta").2 "beta" "alpha").2.store =
      alGet "alpha" stC8.store := by
  have h := rename_roundtrip stC8 "alpha" "beta" "profiles/alpha" "profiles/beta"
    [("notes.txt", FileData.text "n")] (by decide) (by decide) (by decide) (by decide)
    (by decide) (fun r hr => by
      have h2 : some recAlpha = some r := hr
      injection h2 with h3
      rw [← h3]
      exact ⟨by decide, by decide⟩)
  exact ⟨h.1, h.2.2.1, h.2.2.2 "alpha"⟩

/-- Concrete application of `load_metadata_corrupt_spec`: the invalid-JSON
outcome surfaces the corrupt-metadata error. -/
theorem load_metadata_corrupt_spec_app :
    load_metadata MetaFile.invalid = Except.error PErr.ioCorruptMetadata :=
  load_metadata_corrupt_spec.1

end UB
